import Mathlib

/-!
Verification development for the InstaRepost pipeline
(`src/insta_reposter.py`).

The embedding below translates the parts of the source that the
properties under study talk about:

* the per-item worker `repost_media` (media-type dispatch, like,
  download, convert, upload, unsave, history commit);
* the `RateLimiter` class (`success` / `failure` backoff arithmetic);
* the retry structure of `download_media` composed with the
  `with_rate_limit` wrapper;
* the `ConnectionPoolManager` (`get_connection`, `release_connection`,
  `cleanup_stale_connections`);
* the `MemoryManager` quota pass (`get_folder_size`,
  `cleanup_old_media`).

Remote I/O and the filesystem are modelled by explicit oracles: an
`Env` record fixes the outcome each remote call would have, and the
worker is a pure function from that oracle, the in-memory history set
and the incoming item to a result (new history, persisted history,
trace of remote calls, outcome).  Wall-clock waiting is not modelled;
sleeps are recorded as trace events where their durations matter.
-/

/-- Local folder a media file is downloaded into, kept structured.
`repost_media` builds `MEDIA_FOLDER/{username}_{media_id}` for the item
and a per-resource subfolder `.../item_{i}` inside it for album
resource number `i`. -/
inductive MediaPath
  | item_folder (username id : String)
  | resource_sub (username id : String) (i : Nat)
deriving DecidableEq

/-- One resource of an album (`media.resources[i]`): its `pk` and its
`media_type` (1 photo / 2 video). -/
structure MediaResource where
  pk : String
  media_type : Nat
deriving DecidableEq

/-- The fields of an `instagrapi` `Media` object that `repost_media`
reads: `id`, `user.username`, `media_type` (1 photo, 2 video, 8 album),
`product_type` (`none` models a falsy value) and `resources`. -/
structure MediaItem where
  id : String
  username : String
  media_type : Nat
  product_type : Option String
  resources : List MediaResource
deriving DecidableEq

/-- Remote calls the worker can issue, in the order they are issued.
The `unsave` entry records whether the remote unsave succeeded; the
source discards that boolean (`unsave_media` catches the exception and
returns `False`). -/
inductive Call
  | like (id : String)
  | download (target : String) (folder : MediaPath)
  | photo_upload (path : String)
  | video_upload (path : String)
  | igtv_upload (path : String)
  | clip_upload (path : String)
  | album_upload (paths : List String)
  | unsave (id : String) (ok : Bool)
deriving DecidableEq

/-- How one `repost_media` invocation ends: skipped because the id was
already in the history set, returned early because MoviePy is missing
(videos only), finished with `repost_successful = True`, or finished
with `repost_successful = False` (the "not successful" warning). -/
inductive Outcome
  | skipped
  | no_moviepy
  | success
  | not_successful
deriving DecidableEq

/-- Oracle fixing the outcome of every fallible external step of one
`repost_media` run: whether MoviePy imported, what each
`download_media` call returns (`none` = it raised after its retries),
what `convert_to_jpg` returns, whether the upload call succeeds,
whether `media_unsave` succeeds, and whether writing the history file
(`save_history`) succeeds. -/
structure Env where
  moviepy_available : Bool
  photo_download : Option String
  video_download : Option String
  resource_download : Nat → Option String
  convert : String → Option String
  upload_ok : Bool
  unsave_ok : Bool
  save_history_ok : Bool

/-- Result of one `repost_media` run: the in-memory
`saved_posts_history` set afterwards, the persisted history file
contents afterwards, the remote calls issued, and the outcome. -/
structure RepostResult where
  history : List String
  disk : List String
  calls : List Call
  outcome : Outcome
deriving DecidableEq

/-- `validate_file_format`: the path, lower-cased, must end in one of
the supported image extensions. -/
def validate_file_format (path : String) : Bool :=
  let s := path.toLower
  s.endsWith ".jpg" || s.endsWith ".jpeg" || s.endsWith ".png" || s.endsWith ".webp"

/-- The common tail of `repost_media`: if `repost_successful`, add the
id to the in-memory set and attempt `save_history` (which catches its
own exceptions, so a failed write only leaves the file unwritten);
otherwise log the "not successful" warning and leave both untouched. -/
def commit_result (env : Env) (history disk : List String) (id : String)
    (calls : List Call) (ok : Bool) : RepostResult :=
  if ok then
    let h' := id :: history
    ⟨h', if env.save_history_ok then h' else disk, calls, Outcome.success⟩
  else
    ⟨history, disk, calls, Outcome.not_successful⟩

/-- The album branch's download fan-out: one `download_media` call per
resource (the source iterates `enumerate(media.resources)`), each into
its own `item_{i}` subfolder. -/
def album_download_calls (m : MediaItem) : List Call :=
  (List.range m.resources.length).map fun i =>
    Call.download (m.resources.getD i ⟨"", 0⟩).pk
      (MediaPath.resource_sub m.username m.id i)

/-- The paths collected by the album branch: the successful download
results, in resource order (failed resource downloads are logged and
skipped). -/
def album_paths (env : Env) (m : MediaItem) : List String :=
  (List.range m.resources.length).filterMap env.resource_download

/-- `repost_media`, as a pure function of the outcome oracle, the
in-memory history set, the persisted history and the item.

Faithful points: the already-reposted check happens before any remote
call of interest (only the pool checkout precedes it); the like is
attempted before the media-type dispatch and its failure is only
logged; a video is skipped entirely when MoviePy is unavailable; a
video whose `product_type` matches none of the three upload branches
falls through with no upload call yet `repost_successful = True`; the
unsave runs in the branch's `finally` only when the repost succeeded,
and its result is discarded; the history commit adds the id to the
in-memory set before attempting the file write. -/
def repost_media (env : Env) (history disk : List String) (m : MediaItem) :
    RepostResult :=
  if m.id ∈ history then ⟨history, disk, [], Outcome.skipped⟩
  else
    let calls0 := [Call.like m.id]
    let folder := MediaPath.item_folder m.username m.id
    if m.media_type = 1 then
      match env.photo_download with
      | none =>
          commit_result env history disk m.id
            (calls0 ++ [Call.download m.id folder]) false
      | some p =>
          let calls1 := calls0 ++ [Call.download m.id folder]
          match (if validate_file_format p then some p else env.convert p) with
          | none => commit_result env history disk m.id calls1 false
          | some q =>
              if env.upload_ok then
                commit_result env history disk m.id
                  (calls1 ++ [Call.photo_upload q, Call.unsave m.id env.unsave_ok])
                  true
              else
                commit_result env history disk m.id
                  (calls1 ++ [Call.photo_upload q]) false
    else if m.media_type = 2 then
      if env.moviepy_available = false then
        ⟨history, disk, calls0, Outcome.no_moviepy⟩
      else
        match env.video_download with
        | none =>
            commit_result env history disk m.id
              (calls0 ++ [Call.download m.id folder]) false
        | some p =>
            let calls1 := calls0 ++ [Call.download m.id folder]
            match m.product_type with
            | none =>
                if env.upload_ok then
                  commit_result env history disk m.id
                    (calls1 ++ [Call.video_upload p, Call.unsave m.id env.unsave_ok])
                    true
                else
                  commit_result env history disk m.id
                    (calls1 ++ [Call.video_upload p]) false
            | some t =>
                if t = "igtv" then
                  if env.upload_ok then
                    commit_result env history disk m.id
                      (calls1 ++ [Call.igtv_upload p, Call.unsave m.id env.unsave_ok])
                      true
                  else
                    commit_result env history disk m.id
                      (calls1 ++ [Call.igtv_upload p]) false
                else if t = "clips" then
                  if env.upload_ok then
                    commit_result env history disk m.id
                      (calls1 ++ [Call.clip_upload p, Call.unsave m.id env.unsave_ok])
                      true
                  else
                    commit_result env history disk m.id
                      (calls1 ++ [Call.clip_upload p]) false
                else
                  commit_result env history disk m.id
                    (calls1 ++ [Call.unsave m.id env.unsave_ok]) true
    else if m.media_type = 8 then
      let calls1 := calls0 ++ album_download_calls m
      let paths := album_paths env m
      if paths.isEmpty then
        commit_result env history disk m.id calls1 false
      else if env.upload_ok then
        commit_result env history disk m.id
          (calls1 ++ [Call.album_upload paths, Call.unsave m.id env.unsave_ok])
          true
      else
        commit_result env history disk m.id
          (calls1 ++ [Call.album_upload paths]) false
    else
      commit_result env history disk m.id calls0 false

/-- The dispatcher's batch filter in `check_and_repost`: only items
whose id is not in the history set are submitted to workers. -/
def to_repost (saved : List MediaItem) (history : List String) :
    List MediaItem :=
  saved.filter fun m => decide (m.id ∉ history)

/-- The `RateLimiter` class.  Delays are rationals (the source uses
Python floats; the arithmetic here is `*`, `min` and constants).  The
`last_attempt` field only feeds `wait()`, whose wall-clock sleeping is
not modelled, so it is omitted. -/
structure RateLimiter where
  initial_delay : ℚ
  max_delay : ℚ
  backoff_factor : ℚ
  current_delay : ℚ
deriving DecidableEq

/-- `RateLimiter.__init__`: `current_delay` starts at `initial_delay`
(uncapped, whatever the arguments). -/
def RateLimiter.init (initial max_d factor : ℚ) : RateLimiter :=
  ⟨initial, max_d, factor, initial⟩

/-- `RateLimiter.success`: reset the delay to the initial value. -/
def RateLimiter.success (r : RateLimiter) : RateLimiter :=
  { r with current_delay := r.initial_delay }

/-- `RateLimiter.failure`: multiply the delay by the backoff factor,
capped at the maximum. -/
def RateLimiter.failure (r : RateLimiter) : RateLimiter :=
  { r with current_delay := min (r.current_delay * r.backoff_factor) r.max_delay }

/-- `n` consecutive `failure()` calls. -/
def iter_failure (r : RateLimiter) : Nat → RateLimiter
  | 0 => r
  | n + 1 => (iter_failure r n).failure

/-- `POST_RATE_LIMITER = RateLimiter(initial_delay=2)`. -/
def POST_RATE_LIMITER : RateLimiter := RateLimiter.init 2 300 2

/-- `LIKE_RATE_LIMITER = RateLimiter(initial_delay=1)`. -/
def LIKE_RATE_LIMITER : RateLimiter := RateLimiter.init 1 300 2

/-- `MEDIA_RATE_LIMITER = RateLimiter(initial_delay=5)`; this is the
class wrapped around `photo_download` / `video_download`. -/
def MEDIA_RATE_LIMITER : RateLimiter := RateLimiter.init 5 300 2

/-- Events of one `download_media` run that matter here: a remote
fetch attempt, a backoff sleep inside the `with_rate_limit` wrapper
(its duration is the limiter's just-updated `current_delay`), and the
fixed sleep between `download_media`'s own retries. -/
inductive DlEv
  | fetch
  | sleep_backoff (d : ℚ)
  | sleep_outer (d : ℚ)
deriving DecidableEq

/-- State threaded through a download: the limiter and the index of
the next remote attempt (used to consult the outcome oracle). -/
structure DlState where
  rl : RateLimiter
  idx : Nat
deriving DecidableEq

/-- The retry loop of `with_rate_limit` (`max_retries = 3`, counted by
`fuel`): each attempt consults the oracle; success resets the limiter
and returns; failure backs the limiter off, and sleeps the updated
`current_delay` unless it was the last attempt (then the exception
propagates).  The limiter's `wait()` pacing sleep is wall-clock
dependent and not recorded. -/
def rate_limited_call (outcomes : Nat → Bool) :
    Nat → DlState → Bool × List DlEv × DlState
  | 0, s => (false, [], s)
  | fuel + 1, s =>
    if outcomes s.idx then (true, [DlEv.fetch], ⟨s.rl.success, s.idx + 1⟩)
    else
      let rl' := s.rl.failure
      if fuel = 0 then (false, [DlEv.fetch], ⟨rl', s.idx + 1⟩)
      else
        let r := rate_limited_call outcomes fuel ⟨rl', s.idx + 1⟩
        (r.1, DlEv.fetch :: DlEv.sleep_backoff rl'.current_delay :: r.2.1, r.2.2)

/-- A bare `photo_download` / `video_download` call on a pooled client
created by `_add_connection`'s cookie path: such clients never went
through the `with_rate_limit` wrapping of the module-level `client`,
so one call is exactly one remote fetch. -/
def raw_call (outcomes : Nat → Bool) (s : DlState) :
    Bool × List DlEv × DlState :=
  (outcomes s.idx, [DlEv.fetch], ⟨s.rl, s.idx + 1⟩)

/-- The retry loop of `download_media` (`max_retries = 3`, counted by
`fuel`): call the client's download method; on an exception sleep a
fixed 5 seconds and retry, unless it was the last attempt (then the
exception propagates). -/
def download_media_loop (call : DlState → Bool × List DlEv × DlState) :
    Nat → DlState → Bool × List DlEv × DlState
  | 0, s => (false, [], s)
  | fuel + 1, s =>
    let r := call s
    if r.1 then r
    else if fuel = 0 then r
    else
      let r2 := download_media_loop call fuel r.2.2
      (r2.1, r.2.1 ++ DlEv.sleep_outer 5 :: r2.2.1, r2.2.2)

/-- `download_media` when the worker's pooled client is the
module-level `client`, whose download methods are wrapped by
`with_rate_limit`: the two retry loops compose. -/
def download_media_wrapped (outcomes : Nat → Bool) (rl : RateLimiter) :
    Bool × List DlEv × DlState :=
  download_media_loop (rate_limited_call outcomes 3) 3 ⟨rl, 0⟩

/-- `download_media` when the worker's pooled client is a fresh
cookie-authenticated `Client()`: only the outer loop exists. -/
def download_media_raw (outcomes : Nat → Bool) (rl : RateLimiter) :
    Bool × List DlEv × DlState :=
  download_media_loop (raw_call outcomes) 3 ⟨rl, 0⟩

/-- Number of remote fetch attempts in a download's event trace. -/
def count_fetch (evs : List DlEv) : Nat :=
  evs.countP fun e => decide (e = DlEv.fetch)

/-- Which authentication path a `_add_connection` call takes:
`cookie_fresh` — the cookies file loads and validates, so a brand-new
`Client()` is appended; `login_global` — the cookie test fails and
`login()` succeeds, so the module-level `client` object is appended
(again, possibly); `add_fail` — authentication fails, nothing is
appended and `None` is returned. -/
inductive AddMode
  | cookie_fresh
  | login_global
  | add_fail
deriving DecidableEq

/-- `ConnectionPoolManager` state.  Connections are numbered: `0` is
the module-level `client`; fresh `Client()` objects get ids
`1, 2, ...` from `next_fresh`.  `pool` is the `_pool` list (which may
contain duplicates of `0`), `in_use` the `_in_use` dict as an
association list with unique keys, each mapping a connection to its
checkout time. -/
structure PoolState where
  pool : List Nat
  in_use : List (Nat × Nat)
  next_fresh : Nat
deriving DecidableEq

/-- The keys of the `_in_use` dict. -/
def in_use_ids (s : PoolState) : List Nat := s.in_use.map Prod.fst

/-- `_add_connection`: append the new connection to `_pool` and return
it (or return `None` leaving the pool untouched). -/
def add_connection : AddMode → PoolState → Option Nat × PoolState
  | AddMode.cookie_fresh, s =>
      (some s.next_fresh,
        ⟨s.pool ++ [s.next_fresh], s.in_use, s.next_fresh + 1⟩)
  | AddMode.login_global, s => (some 0, ⟨s.pool ++ [0], s.in_use, s.next_fresh⟩)
  | AddMode.add_fail, s => (none, s)

/-- `self._in_use[client] = time.time()`: dict assignment, overwriting
any previous binding for the same key. -/
def mark_in_use (c t : Nat) (l : List (Nat × Nat)) : List (Nat × Nat) :=
  (c, t) :: l.filter fun p => decide (p.1 ≠ c)

/-- One pass of `get_connection`'s polling loop (the loop repeats the
same pass every second until the timeout): hand out the first pooled
connection not in `_in_use`; otherwise, if the pool is not at
`max_connections`, grow it by one and hand that out; otherwise give up
this pass (`none`). -/
def get_connection (mode : AddMode) (now maxc : Nat) (s : PoolState) :
    Option Nat × PoolState :=
  match s.pool.find? (fun c => decide (c ∉ in_use_ids s)) with
  | some c => (some c, ⟨s.pool, mark_in_use c now s.in_use, s.next_fresh⟩)
  | none =>
    if s.pool.length < maxc then
      match add_connection mode s with
      | (some c, s') => (some c, ⟨s'.pool, mark_in_use c now s'.in_use, s'.next_fresh⟩)
      | (none, s') => (none, s')
    else (none, s)

/-- `release_connection`: delete the connection from `_in_use` if
present. -/
def release_connection (c : Nat) (s : PoolState) : PoolState :=
  ⟨s.pool, s.in_use.filter (fun p => decide (p.1 ≠ c)), s.next_fresh⟩

/-- The constructor: `min_connections`/`max_connections` are stored,
`_pool`/`_in_use` start empty and a single `_add_connection()` runs
(failure included — its `None` is ignored).  Fresh ids start at 1 so
that 0 always denotes the module-level `client`. -/
def init_state (mode : AddMode) : PoolState :=
  (add_connection mode ⟨[], [], 1⟩).2

/-- The stale-removal half of `cleanup_stale_connections`: drop every
`_in_use` entry checked out more than `max_age` ago, and
`list.remove` (first occurrence) each such connection from `_pool`. -/
def remove_stale (max_age now : Nat) (s : PoolState) : PoolState :=
  let stale := ((s.in_use.filter fun p => decide (max_age < now - p.2)).map Prod.fst)
  ⟨stale.foldl List.erase s.pool,
    s.in_use.filter (fun p => decide (now - p.2 ≤ max_age)),
    s.next_fresh⟩

/-- Authentication path of the `i`-th top-up `_add_connection` call in
a cleanup pass: `true` = cookie path, `false` = login path.  Both
succeed; a run in which an add fails never leaves the `while` loop
(the loop would spin forever), so only succeeding adds are modelled. -/
def ok_mode : Bool → AddMode
  | true => AddMode.cookie_fresh
  | false => AddMode.login_global

/-- The top-up half of `cleanup_stale_connections`:
`while len(_pool) < min_connections: _add_connection()`.  Each
(succeeding) add grows the pool by one, so the loop runs at most
`min_connections` times; `fuel` bounds the iterations structurally and
`ensure_min` supplies enough of it. -/
def ensure_min_aux (minc : Nat) (modes : Nat → Bool) :
    Nat → Nat → PoolState → PoolState
  | 0, _, s => s
  | fuel + 1, i, s =>
    if s.pool.length < minc then
      ensure_min_aux minc modes fuel (i + 1)
        (add_connection (ok_mode (modes i)) s).2
    else s

/-- The top-up loop with sufficient fuel. -/
def ensure_min (minc : Nat) (modes : Nat → Bool) (i : Nat) (s : PoolState) :
    PoolState :=
  ensure_min_aux minc modes minc i s

/-- `cleanup_stale_connections(max_age)`: evict stale checkouts, then
top the pool back up to `min_connections`. -/
def cleanup_stale_connections (max_age now minc : Nat) (modes : Nat → Bool)
    (s : PoolState) : PoolState :=
  ensure_min minc modes 0 (remove_stale max_age now s)

/-- The operations workers perform on the pool (stale cleanup runs on
its own timer and is kept separate). -/
inductive PoolOp
  | acquire (mode : AddMode) (now : Nat)
  | release (c : Nat)
deriving DecidableEq

/-- Apply one worker operation. -/
def apply_op (maxc : Nat) (s : PoolState) : PoolOp → PoolState
  | PoolOp.acquire mode now => (get_connection mode now maxc s).2
  | PoolOp.release c => release_connection c s

/-- Run a sequence of worker operations. -/
def run_ops (maxc : Nat) : List PoolOp → PoolState → PoolState
  | [], s => s
  | op :: ops, s => run_ops maxc ops (apply_op maxc s op)

/-- An immediate subfolder of the media root as the quota pass sees
it: its path, `os.path.getctime` creation time, and the total bytes of
its regular files (symlinks already excluded). -/
structure MediaSubfolder where
  name : String
  ctime : Nat
  bytes : Nat
deriving DecidableEq

/-- `get_folder_size` over the media root: total bytes of loose root
files (`base`) plus all subfolders, divided by `1024 * 1024` to give
megabytes (as an exact rational, via `mkRat`). -/
def get_folder_size (base : Nat) (folders : List MediaSubfolder) : ℚ :=
  mkRat (base + (folders.map MediaSubfolder.bytes).sum) (1024 * 1024)

/-- Creation-time order used by `folders.sort(key=lambda x: x[1])`. -/
def ctime_le (a b : MediaSubfolder) : Prop := a.ctime ≤ b.ctime

instance : DecidableRel ctime_le := fun a b => Nat.decLe a.ctime b.ctime

instance : IsTotal MediaSubfolder ctime_le :=
  ⟨fun a b => Nat.le_total a.ctime b.ctime⟩

instance : IsTrans MediaSubfolder ctime_le :=
  ⟨fun _ _ _ hab hbc => Nat.le_trans hab hbc⟩

/-- The removal loop of `cleanup_old_media` over the ctime-sorted
subfolder list: before each removal re-check the total size and stop
at or under the quota; `shutil.rmtree` failures (`rm_ok f = false`)
are logged and the loop moves on, leaving the folder in place
(`kept`).  The loop's post-removal size check repeats the next
iteration's entry check verbatim and is folded into it. -/
def remove_oldest (max_mb : ℚ) (base : Nat) (rm_ok : MediaSubfolder → Bool) :
    List MediaSubfolder → List MediaSubfolder → List MediaSubfolder
  | [], kept => kept
  | f :: rest, kept =>
    if get_folder_size base (kept ++ f :: rest) ≤ max_mb then kept ++ f :: rest
    else if rm_ok f then remove_oldest max_mb base rm_ok rest kept
    else remove_oldest max_mb base rm_ok rest (kept ++ [f])

/-- `MemoryManager.cleanup_old_media`: if the media root is over
quota, list the immediate subfolders with creation times, sort
ascending, and remove oldest-first until at or under quota or no
folders remain.  Returns the surviving subfolders. -/
def cleanup_old_media (max_mb : ℚ) (base : Nat)
    (rm_ok : MediaSubfolder → Bool) (folders : List MediaSubfolder) :
    List MediaSubfolder :=
  if max_mb < get_folder_size base folders then
    remove_oldest max_mb base rm_ok (List.insertionSort ctime_le folders) []
  else folders

/-- A sample oracle: everything succeeds, the photo downloads to
`a.jpg` (already a supported format), album resources all fail. -/
def env0 : Env :=
  ⟨true, some "a.jpg", some "v.mp4", fun _ => none, fun _ => none,
    true, true, true⟩

section RateLimiterLemmas

lemma iter_failure_initial_delay (r : RateLimiter) (n : Nat) :
    (iter_failure r n).initial_delay = r.initial_delay := by
  induction n with
  | zero => rfl
  | succ n ih => simp [iter_failure, RateLimiter.failure, ih]

lemma iter_failure_max_delay (r : RateLimiter) (n : Nat) :
    (iter_failure r n).max_delay = r.max_delay := by
  induction n with
  | zero => rfl
  | succ n ih => simp [iter_failure, RateLimiter.failure, ih]

lemma iter_failure_backoff_factor (r : RateLimiter) (n : Nat) :
    (iter_failure r n).backoff_factor = r.backoff_factor := by
  induction n with
  | zero => rfl
  | succ n ih => simp [iter_failure, RateLimiter.failure, ih]

end RateLimiterLemmas

/-- C2. A worker started on an item whose id is already in the
saved-posts history set issues no remote call at all (in particular no
publish, download, like or unsave), ends in the skipped state, and
leaves both the in-memory history and the history file unchanged. -/
theorem c2_already_in_ledger_skips (env : Env) (h d : List String)
    (m : MediaItem) (hmem : m.id ∈ h) :
    repost_media env h d m = ⟨h, d, [], Outcome.skipped⟩ := by
  simp [repost_media, hmem]

/-- C2 witness: a concrete item whose id is in the history. -/
theorem c2_already_in_ledger_skips_witness :
    "X1" ∈ ["X1"] ∧
      repost_media env0 ["X1"] [] ⟨"X1", "alice", 1, none, []⟩ =
        ⟨["X1"], [], [], Outcome.skipped⟩ :=
  ⟨by decide,
    c2_already_in_ledger_skips env0 ["X1"] [] ⟨"X1", "alice", 1, none, []⟩
      (by decide)⟩

/-- C9. For a video item (`media_type == 2`) with MoviePy unavailable,
the worker returns right after the like attempt: no download, upload
or unsave call, the history set and file are untouched, and the item
therefore reappears in every later batch's to-repost list. -/
theorem c9_video_without_moviepy_skipped (env : Env) (h d : List String)
    (m : MediaItem) (hmv : env.moviepy_available = false)
    (ht : m.media_type = 2) (hin : m.id ∉ h) :
    repost_media env h d m = ⟨h, d, [Call.like m.id], Outcome.no_moviepy⟩ ∧
      ∀ saved : List MediaItem, m ∈ saved →
        m ∈ to_repost saved (repost_media env h d m).history := by
  have hres : repost_media env h d m =
      ⟨h, d, [Call.like m.id], Outcome.no_moviepy⟩ := by
    simp [repost_media, hin, ht, hmv]
  refine ⟨hres, fun saved hs => ?_⟩
  rw [hres]
  simp [to_repost, List.mem_filter, hs, hin]

/-- C9 witness: a concrete video item, MoviePy missing. -/
theorem c9_video_without_moviepy_skipped_witness :
    ({ env0 with moviepy_available := false } : Env).moviepy_available = false ∧
      (⟨"V1", "bob", 2, none, []⟩ : MediaItem).media_type = 2 ∧
      "V1" ∉ ([] : List String) ∧
      (repost_media { env0 with moviepy_available := false } [] []
          ⟨"V1", "bob", 2, none, []⟩ =
        ⟨[], [], [Call.like "V1"], Outcome.no_moviepy⟩ ∧
      ∀ saved : List MediaItem, (⟨"V1", "bob", 2, none, []⟩ : MediaItem) ∈ saved →
        (⟨"V1", "bob", 2, none, []⟩ : MediaItem) ∈ to_repost saved
          (repost_media { env0 with moviepy_available := false } [] []
            ⟨"V1", "bob", 2, none, []⟩).history) :=
  ⟨rfl, rfl, by decide,
    c9_video_without_moviepy_skipped { env0 with moviepy_available := false }
      [] [] ⟨"V1", "bob", 2, none, []⟩ rfl rfl (by decide)⟩

/-- C3 counterexample.  The claim's formula
`currentDelay = min(initial * factor^N, max)` quantifies over every
initial delay, factor and maximum, for every `N ≥ 0`; the constructor
does not cap the initial delay, so a limiter built with
`initial = 400 > max = 300` already violates the formula at `N = 0`
(its delay is 400, the formula says 300). -/
theorem c3_counterexample :
    (iter_failure (RateLimiter.init 400 300 2) 0).current_delay ≠
      min ((400 : ℚ) * 2 ^ 0) 300 := by
  norm_num [iter_failure, RateLimiter.init]

/-- C3 amended.  For every rate limiter whose configuration satisfies
`0 ≤ initial ≤ max` and `0 ≤ factor` (all three limiters the program
constructs do), after `N` consecutive `failure()` calls the current
delay equals `min(initial * factor^N, max)`, and one `success()` call
then resets it to exactly `initial`, for every `N ≥ 0`. -/
theorem c3_backoff_monotone (I M F : ℚ) (hI : 0 ≤ I) (hIM : I ≤ M)
    (hF : 0 ≤ F) (N : Nat) :
    (iter_failure (RateLimiter.init I M F) N).current_delay =
        min (I * F ^ N) M ∧
      ((iter_failure (RateLimiter.init I M F) N).success).current_delay = I := by
  constructor
  · induction N with
    | zero =>
      simp [iter_failure, RateLimiter.init, min_eq_left hIM]
    | succ n ih =>
      have hstep :
          (iter_failure (RateLimiter.init I M F) (n + 1)).current_delay =
            min ((iter_failure (RateLimiter.init I M F) n).current_delay * F) M := by
        have hdef :
            (iter_failure (RateLimiter.init I M F) (n + 1)).current_delay =
              min ((iter_failure (RateLimiter.init I M F) n).current_delay *
                  (iter_failure (RateLimiter.init I M F) n).backoff_factor)
                ((iter_failure (RateLimiter.init I M F) n).max_delay) := rfl
        rw [hdef, iter_failure_backoff_factor, iter_failure_max_delay]
        rfl
      rw [hstep, ih]
      rcases le_or_lt (I * F ^ n) M with hle | hlt
      · rw [min_eq_left hle, pow_succ, ← mul_assoc]
      · rw [min_eq_right (le_of_lt hlt)]
        rcases le_or_lt 1 F with hF1 | hF1
        · have hM0 : 0 ≤ M := le_trans hI hIM
          have h1 : M ≤ M * F := le_mul_of_one_le_right hM0 hF1
          have h2 : M * F ≤ I * F ^ n * F :=
            mul_le_mul_of_nonneg_right (le_of_lt hlt) hF
          have h3 : M ≤ I * F ^ (n + 1) := by
            rw [pow_succ, ← mul_assoc]
            exact le_trans h1 h2
          rw [min_eq_right h1, min_eq_right h3]
        · exfalso
          have hpow : F ^ n ≤ 1 := pow_le_one₀ hF (le_of_lt hF1)
          have hle' : I * F ^ n ≤ I := mul_le_of_le_one_right hI hpow
          exact absurd hlt (not_lt.mpr (le_trans hle' hIM))
  · simp [RateLimiter.success, iter_failure_initial_delay, RateLimiter.init]

section RepostShape

/-- Every `repost_media` run either ends in the common commit tail, or
is one of the two early returns. -/
lemma repost_media_shape (env : Env) (h d : List String) (m : MediaItem) :
    (∃ calls ok, repost_media env h d m = commit_result env h d m.id calls ok) ∨
      repost_media env h d m = ⟨h, d, [], Outcome.skipped⟩ ∨
      repost_media env h d m = ⟨h, d, [Call.like m.id], Outcome.no_moviepy⟩ := by
  unfold repost_media
  dsimp only
  repeat' split
  all_goals first
    | exact Or.inr (Or.inl rfl)
    | exact Or.inr (Or.inr rfl)
    | exact Or.inl ⟨_, _, rfl⟩

end RepostShape

/-- C1 counterexample.  A concrete photo item whose remote publish
succeeds while the history-file write fails: the worker's outcome is
`success` (not a failure), the id is in the in-memory history (it IS
treated as processed from then on), and only the on-disk file is left
unwritten — the claim says the failure is surfaced as fatal and the
item is not considered reposted, which is false at this input. -/
theorem c1_counterexample :
    (repost_media { env0 with save_history_ok := false } [] []
          ⟨"A1", "alice", 2, none, []⟩).outcome = Outcome.success ∧
      "A1" ∈ (repost_media { env0 with save_history_ok := false } [] []
          ⟨"A1", "alice", 2, none, []⟩).history := by
  decide

/-- C1 amended.  When the remote publish of an item succeeds but the
history-file write fails, the failure is caught and logged inside
`save_history` and never surfaced: the worker's outcome is still
`success`, the item's id has already been added to the in-memory
history (so it IS treated as processed for the rest of the process),
and only the persisted history file is left unchanged — the record is
lost across a restart. -/
theorem c1_commit_failure_swallowed (env : Env) (h d : List String)
    (m : MediaItem) (hsave : env.save_history_ok = false)
    (hsucc : (repost_media env h d m).outcome = Outcome.success) :
    m.id ∈ (repost_media env h d m).history ∧
      (repost_media env h d m).disk = d := by
  rcases repost_media_shape env h d m with ⟨calls, ok, heq⟩ | heq | heq
  · rw [heq] at hsucc ⊢
    cases ok
    · simp [commit_result] at hsucc
    · simp [commit_result, hsave]
  · rw [heq] at hsucc
    simp at hsucc
  · rw [heq] at hsucc
    simp at hsucc

/-- C1 amended witness: the same concrete run as the counterexample,
fed through the amended theorem. -/
theorem c1_commit_failure_swallowed_witness :
    ({ env0 with save_history_ok := false } : Env).save_history_ok = false ∧
      (repost_media { env0 with save_history_ok := false } [] []
          ⟨"A1", "alice", 2, none, []⟩).outcome = Outcome.success ∧
      ("A1" ∈ (repost_media { env0 with save_history_ok := false } [] []
            ⟨"A1", "alice", 2, none, []⟩).history ∧
        (repost_media { env0 with save_history_ok := false } [] []
            ⟨"A1", "alice", 2, none, []⟩).disk = []) :=
  ⟨rfl, by decide,
    c1_commit_failure_swallowed { env0 with save_history_ok := false } [] []
      ⟨"A1", "alice", 2, none, []⟩ rfl (by decide)⟩

section AlbumLemmas

/-- Resource `i`'s download call (into its own `item_{i}` subfolder)
is part of the album fan-out, whatever the other resources did. -/
lemma mem_album_download_calls (m : MediaItem) (i : Nat)
    (hi : i < m.resources.length) :
    Call.download (m.resources.get ⟨i, hi⟩).pk
        (MediaPath.resource_sub m.username m.id i) ∈ album_download_calls m := by
  unfold album_download_calls
  refine List.mem_map.mpr ⟨i, List.mem_range.mpr hi, ?_⟩
  rw [List.getD_eq_getElem _ _ hi]
  rfl

/-- The download fan-out contains no upload call. -/
lemma album_upload_not_mem_album_download_calls (m : MediaItem)
    (ps : List String) :
    Call.album_upload ps ∉ album_download_calls m := by
  unfold album_download_calls
  simp

/-- Every collected album path is a successful resource download. -/
lemma album_paths_sound (env : Env) (m : MediaItem) (p : String)
    (hp : p ∈ album_paths env m) :
    ∃ i, i < m.resources.length ∧ env.resource_download i = some p := by
  unfold album_paths at hp
  rcases List.mem_filterMap.mp hp with ⟨i, hi, hs⟩
  exact ⟨i, List.mem_range.mp hi, hs⟩

end AlbumLemmas

/-- C5. For an album item not yet in the history: every resource gets
its own download attempt into its own `item_{i}` subfolder (the loop
continues past individual failures); the collected paths are exactly
successful downloads; if at least one path was collected the album
upload is attempted with exactly those paths (so a 2-resource album
with one failed download is uploaded with 1 resource) and, when the
upload succeeds, the item commits to the history; if zero resources
succeeded no upload is attempted, the item fails, and history and the
history file are untouched. -/
theorem c5_album_fan_out (env : Env) (h d : List String) (m : MediaItem)
    (h8 : m.media_type = 8) (hns : m.id ∉ h) :
    (∀ i (hi : i < m.resources.length),
        Call.download (m.resources.get ⟨i, hi⟩).pk
            (MediaPath.resource_sub m.username m.id i) ∈
          (repost_media env h d m).calls) ∧
      (∀ p, p ∈ album_paths env m →
        ∃ i, i < m.resources.length ∧ env.resource_download i = some p) ∧
      (album_paths env m ≠ [] →
        Call.album_upload (album_paths env m) ∈ (repost_media env h d m).calls) ∧
      (album_paths env m ≠ [] → env.upload_ok = true →
        (repost_media env h d m).outcome = Outcome.success ∧
          (repost_media env h d m).history = m.id :: h) ∧
      (album_paths env m = [] →
        (∀ ps, Call.album_upload ps ∉ (repost_media env h d m).calls) ∧
          (repost_media env h d m).outcome = Outcome.not_successful ∧
          (repost_media env h d m).history = h ∧
          (repost_media env h d m).disk = d) := by
  have h1 : m.media_type ≠ 1 := by rw [h8]; decide
  have h2 : m.media_type ≠ 2 := by rw [h8]; decide
  by_cases hp : album_paths env m = []
  · have hr : repost_media env h d m =
        commit_result env h d m.id
          (Call.like m.id :: album_download_calls m) false := by
      simp [repost_media, hns, h1, h2, h8, hp]
    refine ⟨?_, fun p hmem => album_paths_sound env m p hmem, ?_, ?_, ?_⟩
    · intro i hi
      rw [hr]
      simp only [commit_result]
      exact List.mem_cons_of_mem _ (mem_album_download_calls m i hi)
    · intro hne; exact absurd hp hne
    · intro hne; exact absurd hp hne
    · intro _
      rw [hr]
      refine ⟨?_, rfl, rfl, rfl⟩
      intro ps hmem
      simp only [commit_result] at hmem
      rcases List.mem_cons.mp hmem with hl | hl
      · cases hl
      · exact album_upload_not_mem_album_download_calls m ps hl
  · have hpe : (album_paths env m).isEmpty = false := by
      simpa [List.isEmpty_iff] using hp
    rcases hup : env.upload_ok with _ | _
    · have hr : repost_media env h d m =
          commit_result env h d m.id
            ((Call.like m.id :: album_download_calls m) ++
              [Call.album_upload (album_paths env m)]) false := by
        simp [repost_media, hns, h1, h2, h8, hpe, hup]
      refine ⟨?_, fun p hmem => album_paths_sound env m p hmem, ?_, ?_, ?_⟩
      · intro i hi
        rw [hr]
        simp only [commit_result]
        exact List.mem_append_left _
          (List.mem_cons_of_mem _ (mem_album_download_calls m i hi))
      · intro _
        rw [hr]
        simp [commit_result]
      · intro _ hcontra
        cases hcontra
      · intro hcontra; exact absurd hcontra hp
    · have hr : repost_media env h d m =
          commit_result env h d m.id
            ((Call.like m.id :: album_download_calls m) ++
              [Call.album_upload (album_paths env m),
                Call.unsave m.id env.unsave_ok]) true := by
        simp [repost_media, hns, h1, h2, h8, hpe, hup]
      refine ⟨?_, fun p hmem => album_paths_sound env m p hmem, ?_, ?_, ?_⟩
      · intro i hi
        rw [hr]
        simp only [commit_result, if_true]
        exact List.mem_append_left _
          (List.mem_cons_of_mem _ (mem_album_download_calls m i hi))
      · intro _
        rw [hr]
        simp [commit_result]
      · intro _ _
        rw [hr]
        simp [commit_result]
      · intro hcontra; exact absurd hcontra hp

/-- C5 witness: a 2-resource album where resource 0 downloads to `p0`
and resource 1 fails; everything else succeeds. -/
theorem c5_album_fan_out_witness :
    (⟨"A2", "bob", 8, none, [⟨"r0", 1⟩, ⟨"r1", 2⟩]⟩ : MediaItem).media_type = 8 ∧
      "A2" ∉ ([] : List String) ∧
      ((∀ i (hi : i < (⟨"A2", "bob", 8, none,
              [⟨"r0", 1⟩, ⟨"r1", 2⟩]⟩ : MediaItem).resources.length),
          Call.download
              ((⟨"A2", "bob", 8, none,
                  [⟨"r0", 1⟩, ⟨"r1", 2⟩]⟩ : MediaItem).resources.get ⟨i, hi⟩).pk
              (MediaPath.resource_sub "bob" "A2" i) ∈
            (repost_media
              { env0 with resource_download := fun i => if i = 0 then some "p0" else none }
              [] [] ⟨"A2", "bob", 8, none, [⟨"r0", 1⟩, ⟨"r1", 2⟩]⟩).calls) ∧
        (∀ p, p ∈ album_paths
            { env0 with resource_download := fun i => if i = 0 then some "p0" else none }
            ⟨"A2", "bob", 8, none, [⟨"r0", 1⟩, ⟨"r1", 2⟩]⟩ →
          ∃ i, i < (⟨"A2", "bob", 8, none,
              [⟨"r0", 1⟩, ⟨"r1", 2⟩]⟩ : MediaItem).resources.length ∧
            (fun i => if i = 0 then some "p0" else none : Nat → Option String) i
              = some p) ∧
        (album_paths
            { env0 with resource_download := fun i => if i = 0 then some "p0" else none }
            ⟨"A2", "bob", 8, none, [⟨"r0", 1⟩, ⟨"r1", 2⟩]⟩ ≠ [] →
          Call.album_upload (album_paths
              { env0 with resource_download := fun i => if i = 0 then some "p0" else none }
              ⟨"A2", "bob", 8, none, [⟨"r0", 1⟩, ⟨"r1", 2⟩]⟩) ∈
            (repost_media
              { env0 with resource_download := fun i => if i = 0 then some "p0" else none }
              [] [] ⟨"A2", "bob", 8, none, [⟨"r0", 1⟩, ⟨"r1", 2⟩]⟩).calls) ∧
        (album_paths
            { env0 with resource_download := fun i => if i = 0 then some "p0" else none }
            ⟨"A2", "bob", 8, none, [⟨"r0", 1⟩, ⟨"r1", 2⟩]⟩ ≠ [] →
          ({ env0 with resource_download := fun i => if i = 0 then some "p0" else none } : Env).upload_ok = true →
          (repost_media
              { env0 with resource_download := fun i => if i = 0 then some "p0" else none }
              [] [] ⟨"A2", "bob", 8, none, [⟨"r0", 1⟩, ⟨"r1", 2⟩]⟩).outcome
              = Outcome.success ∧
            (repost_media
                { env0 with resource_download := fun i => if i = 0 then some "p0" else none }
                [] [] ⟨"A2", "bob", 8, none, [⟨"r0", 1⟩, ⟨"r1", 2⟩]⟩).history
              = "A2" :: []) ∧
        (album_paths
            { env0 with resource_download := fun i => if i = 0 then some "p0" else none }
            ⟨"A2", "bob", 8, none, [⟨"r0", 1⟩, ⟨"r1", 2⟩]⟩ = [] →
          (∀ ps, Call.album_upload ps ∉
              (repost_media
                { env0 with resource_download := fun i => if i = 0 then some "p0" else none }
                [] [] ⟨"A2", "bob", 8, none, [⟨"r0", 1⟩, ⟨"r1", 2⟩]⟩).calls) ∧
            (repost_media
                { env0 with resource_download := fun i => if i = 0 then some "p0" else none }
                [] [] ⟨"A2", "bob", 8, none, [⟨"r0", 1⟩, ⟨"r1", 2⟩]⟩).outcome
              = Outcome.not_successful ∧
            (repost_media
                { env0 with resource_download := fun i => if i = 0 then some "p0" else none }
                [] [] ⟨"A2", "bob", 8, none, [⟨"r0", 1⟩, ⟨"r1", 2⟩]⟩).history
              = [] ∧
            (repost_media
                { env0 with resource_download := fun i => if i = 0 then some "p0" else none }
                [] [] ⟨"A2", "bob", 8, none, [⟨"r0", 1⟩, ⟨"r1", 2⟩]⟩).disk
              = [])) :=
  ⟨rfl, by decide,
    c5_album_fan_out
      { env0 with resource_download := fun i => if i = 0 then some "p0" else none }
      [] [] ⟨"A2", "bob", 8, none, [⟨"r0", 1⟩, ⟨"r1", 2⟩]⟩ rfl (by decide)⟩

/-- C8. The unsave step is best-effort: the in-memory history, the
history file and the worker's outcome are the same whether the unsave
call succeeds or fails (only the recorded unsave event differs), and
whenever the outcome is `success` the item's id is in the resulting
history — so a failed unsave never reverts the item to unprocessed. -/
theorem c8_unsave_best_effort (env : Env) (h d : List String)
    (m : MediaItem) (b₁ b₂ : Bool) :
    ((repost_media { env with unsave_ok := b₁ } h d m).history =
        (repost_media { env with unsave_ok := b₂ } h d m).history) ∧
      ((repost_media { env with unsave_ok := b₁ } h d m).disk =
        (repost_media { env with unsave_ok := b₂ } h d m).disk) ∧
      ((repost_media { env with unsave_ok := b₁ } h d m).outcome =
        (repost_media { env with unsave_ok := b₂ } h d m).outcome) ∧
      ((repost_media { env with unsave_ok := b₁ } h d m).outcome =
          Outcome.success →
        m.id ∈ (repost_media { env with unsave_ok := b₁ } h d m).history) := by
  obtain ⟨mv, pd, vd, rd, cv, up, u, sv⟩ := env
  obtain ⟨mid, mun, mt, mpt, mres⟩ := m
  by_cases hmem : mid ∈ h
  · simp [repost_media, hmem]
  · by_cases h1 : mt = 1
    · cases pd with
      | none => simp [repost_media, hmem, h1, commit_result]
      | some p =>
        rcases hval : (if validate_file_format p then some p else cv p)
          with _ | q <;> cases up <;>
          simp [repost_media, hmem, h1, hval, commit_result]
    · by_cases h2 : mt = 2
      · cases mv with
        | false => simp [repost_media, hmem, h1, h2]
        | true =>
          cases vd with
          | none => simp [repost_media, hmem, h1, h2, commit_result]
          | some p =>
            rcases mpt with _ | t
            · cases up <;> simp [repost_media, hmem, h1, h2, commit_result]
            · by_cases hig : t = "igtv"
              · cases up <;>
                  simp [repost_media, hmem, h1, h2, hig, commit_result]
              · by_cases hcl : t = "clips"
                · cases up <;>
                    simp [repost_media, hmem, h1, h2, hig, hcl, commit_result]
                · simp [repost_media, hmem, h1, h2, hig, hcl, commit_result]
      · by_cases h8 : mt = 8
        · by_cases hp :
            ((List.range mres.length).filterMap rd : List String) = []
          · simp [repost_media, hmem, h1, h2, h8, album_paths, hp,
              commit_result]
          · have hpe : (((List.range mres.length).filterMap rd :
                List String)).isEmpty = false := by
              simpa [List.isEmpty_iff] using hp
            cases up <;>
              simp [repost_media, hmem, h1, h2, h8, album_paths, hpe,
                commit_result]
        · simp [repost_media, hmem, h1, h2, h8, commit_result]

/-- C8 witness: a concrete successful video repost, unsave failing
versus succeeding. -/
theorem c8_unsave_best_effort_witness :
    ((repost_media { env0 with unsave_ok := false } [] []
          ⟨"U1", "carol", 2, none, []⟩).history =
        (repost_media { env0 with unsave_ok := true } [] []
          ⟨"U1", "carol", 2, none, []⟩).history) ∧
      ((repost_media { env0 with unsave_ok := false } [] []
          ⟨"U1", "carol", 2, none, []⟩).disk =
        (repost_media { env0 with unsave_ok := true } [] []
          ⟨"U1", "carol", 2, none, []⟩).disk) ∧
      ((repost_media { env0 with unsave_ok := false } [] []
          ⟨"U1", "carol", 2, none, []⟩).outcome =
        (repost_media { env0 with unsave_ok := true } [] []
          ⟨"U1", "carol", 2, none, []⟩).outcome) ∧
      ((repost_media { env0 with unsave_ok := false } [] []
          ⟨"U1", "carol", 2, none, []⟩).outcome = Outcome.success →
        "U1" ∈ (repost_media { env0 with unsave_ok := false } [] []
          ⟨"U1", "carol", 2, none, []⟩).history) :=
  c8_unsave_best_effort env0 [] [] ⟨"U1", "carol", 2, none, []⟩ false true

section DownloadLemmas

lemma count_fetch_append (a b : List DlEv) :
    count_fetch (a ++ b) = count_fetch a + count_fetch b := by
  simp [count_fetch, List.countP_append]

lemma count_fetch_rate_limited_call (outcomes : Nat → Bool) :
    ∀ fuel s, count_fetch (rate_limited_call outcomes fuel s).2.1 ≤ fuel := by
  intro fuel
  induction fuel with
  | zero => intro s; simp [rate_limited_call, count_fetch]
  | succ n ih =>
    intro s
    by_cases ho : outcomes s.idx
    · simp [rate_limited_call, ho, count_fetch]
    · by_cases hn : n = 0
      · simp [rate_limited_call, ho, hn, count_fetch]
      · have := ih ⟨s.rl.failure, s.idx + 1⟩
        simp only [rate_limited_call, ho, hn, if_neg, if_false, Bool.false_eq_true]
        simp [count_fetch, List.countP_cons] at this ⊢
        omega

lemma no_sleep_outer_rate_limited_call (outcomes : Nat → Bool) :
    ∀ fuel s x, DlEv.sleep_outer x ∉ (rate_limited_call outcomes fuel s).2.1 := by
  intro fuel
  induction fuel with
  | zero => intro s x; simp [rate_limited_call]
  | succ n ih =>
    intro s x
    by_cases ho : outcomes s.idx
    · simp [rate_limited_call, ho]
    · by_cases hn : n = 0
      · simp [rate_limited_call, ho, hn]
      · have := ih ⟨s.rl.failure, s.idx + 1⟩ x
        simp [rate_limited_call, ho, hn]
        exact this

lemma count_fetch_download_media_loop
    (call : DlState → Bool × List DlEv × DlState) (c : Nat)
    (hc : ∀ s, count_fetch (call s).2.1 ≤ c) :
    ∀ fuel s, count_fetch (download_media_loop call fuel s).2.1 ≤ fuel * c := by
  intro fuel
  induction fuel with
  | zero => intro s; simp [download_media_loop, count_fetch]
  | succ n ih =>
    intro s
    have hcle : c ≤ (n + 1) * c := Nat.le_mul_of_pos_left c (Nat.succ_pos n)
    by_cases h1 : (call s).1
    · have := hc s
      simp [download_media_loop, h1]
      omega
    · by_cases hn : n = 0
      · have := hc s
        simp [download_media_loop, h1, hn]
        omega
      · have hrec := ih (call s).2.2
        have := hc s
        simp only [download_media_loop, h1, hn, if_neg, if_false,
          Bool.false_eq_true]
        simp [count_fetch_append, count_fetch, List.countP_cons] at this hrec ⊢
        have hmul : (n + 1) * c = n * c + c := by ring
        omega

lemma sleep_outer_download_media_loop
    (call : DlState → Bool × List DlEv × DlState)
    (hcall : ∀ s x, DlEv.sleep_outer x ∉ (call s).2.1) :
    ∀ fuel s x,
      DlEv.sleep_outer x ∈ (download_media_loop call fuel s).2.1 → x = 5 := by
  intro fuel
  induction fuel with
  | zero => intro s x hx; simp [download_media_loop] at hx
  | succ n ih =>
    intro s x hx
    by_cases h1 : (call s).1
    · rw [download_media_loop] at hx
      simp only [h1, if_true] at hx
      exact absurd hx (hcall s x)
    · by_cases hn : n = 0
      · rw [download_media_loop] at hx
        simp only [h1, hn, if_true, if_false, Bool.false_eq_true] at hx
        exact absurd hx (hcall s x)
      · rw [download_media_loop] at hx
        simp only [h1, hn, if_false, Bool.false_eq_true, List.mem_append,
          List.mem_cons] at hx
        rcases hx with hx | hx
        · exact absurd hx (hcall s x)
        · rcases hx with hx | hx
          · cases hx; rfl
          · exact ih (call s).2.2 x hx

lemma count_fetch_raw_call (outcomes : Nat → Bool) (s : DlState) :
    count_fetch (raw_call outcomes s).2.1 ≤ 1 := by
  simp [raw_call, count_fetch]

lemma no_sleep_outer_raw_call (outcomes : Nat → Bool) (s : DlState)
    (x : ℚ) : DlEv.sleep_outer x ∉ (raw_call outcomes s).2.1 := by
  simp [raw_call]

/-- In a photo or video run, every download call the worker issues
goes into the item's own `{username}_{media_id}` folder. -/
lemma download_folder_is_item_folder (env : Env) (h d : List String)
    (m : MediaItem) (t : String) (f : MediaPath)
    (hmem : Call.download t f ∈ (repost_media env h d m).calls)
    (h8 : m.media_type ≠ 8) :
    f = MediaPath.item_folder m.username m.id := by
  obtain ⟨mv, pd, vd, rd, cv, up, u, sv⟩ := env
  obtain ⟨mid, mun, mt, mpt, mres⟩ := m
  simp only [MediaItem.media_type] at h8
  by_cases hh : mid ∈ h
  · simp [repost_media, hh] at hmem
  · by_cases h1 : mt = 1
    · cases pd with
      | none =>
        simp [repost_media, hh, h1, commit_result] at hmem
        exact hmem.2
      | some p =>
        rcases hval : (if validate_file_format p then some p else cv p)
          with _ | q <;> cases up <;>
          simp [repost_media, hh, h1, hval, commit_result] at hmem <;>
          exact hmem.2
    · by_cases h2 : mt = 2
      · cases mv with
        | false => simp [repost_media, hh, h1, h2] at hmem
        | true =>
          cases vd with
          | none =>
            simp [repost_media, hh, h1, h2, commit_result] at hmem
            exact hmem.2
          | some p =>
            rcases mpt with _ | ty
            · cases up <;>
                simp [repost_media, hh, h1, h2, commit_result] at hmem <;>
                exact hmem.2
            · by_cases hig : ty = "igtv"
              · cases up <;>
                  simp [repost_media, hh, h1, h2, hig, commit_result] at hmem <;>
                  exact hmem.2
              · by_cases hcl : ty = "clips"
                · cases up <;>
                    simp [repost_media, hh, h1, h2, hig, hcl,
                      commit_result] at hmem <;>
                    exact hmem.2
                · simp [repost_media, hh, h1, h2, hig, hcl,
                    commit_result] at hmem
                  exact hmem.2
      · by_cases hm8 : mt = 8
        · exact absurd hm8 h8
        · simp [repost_media, hh, h1, h2, hm8, commit_result] at hmem

end DownloadLemmas

/-- C6 counterexample.  When the worker's pooled connection is the
module-level `client` (whose `photo_download`/`video_download` are
wrapped by `with_rate_limit`, retrying 3 times inside each of
`download_media`'s own 3 attempts), a download in which every remote
fetch fails performs 9 remote fetch attempts — not at most 3 as the
claim states. -/
theorem c6_counterexample :
    count_fetch
        (download_media_wrapped (fun _ => false) MEDIA_RATE_LIMITER).2.1 = 9 ∧
      ¬ count_fetch
          (download_media_wrapped (fun _ => false) MEDIA_RATE_LIMITER).2.1 ≤ 3 := by
  decide

/-- C6 amended.  `download_media` itself makes at most 3 attempts with
a fixed 5-second sleep between consecutive ones; on a pooled client
from the cookie path (unwrapped methods) that is at most 3 remote
fetches, but on the module-level wrapped client each attempt is itself
retried up to 3 times by `with_rate_limit` (with backoff sleeps), so
up to 9 remote fetches happen.  Photo/video downloads always target
the per-item folder `{username}_{media_id}`, and distinct usernames or
ids give distinct folders. -/
theorem c6_download_retries (outcomes : Nat → Bool) (rl : RateLimiter) :
    count_fetch (download_media_raw outcomes rl).2.1 ≤ 3 ∧
      (∀ x, DlEv.sleep_outer x ∈ (download_media_raw outcomes rl).2.1 → x = 5) ∧
      count_fetch (download_media_wrapped outcomes rl).2.1 ≤ 9 ∧
      (∀ x, DlEv.sleep_outer x ∈ (download_media_wrapped outcomes rl).2.1 →
        x = 5) ∧
      (∀ env h d m t f, Call.download t f ∈ (repost_media env h d m).calls →
        m.media_type ≠ 8 → f = MediaPath.item_folder m.username m.id) ∧
      (∀ u₁ i₁ u₂ i₂, MediaPath.item_folder u₁ i₁ = MediaPath.item_folder u₂ i₂ →
        u₁ = u₂ ∧ i₁ = i₂) := by
  refine ⟨?_, ?_, ?_, ?_, ?_, ?_⟩
  · have := count_fetch_download_media_loop (raw_call outcomes) 1
      (count_fetch_raw_call outcomes) 3 ⟨rl, 0⟩
    simpa [download_media_raw] using this
  · intro x hx
    exact sleep_outer_download_media_loop (raw_call outcomes)
      (no_sleep_outer_raw_call outcomes) 3 ⟨rl, 0⟩ x hx
  · have := count_fetch_download_media_loop (rate_limited_call outcomes 3) 3
      (count_fetch_rate_limited_call outcomes 3) 3 ⟨rl, 0⟩
    simpa [download_media_wrapped] using this
  · intro x hx
    exact sleep_outer_download_media_loop (rate_limited_call outcomes 3)
      (fun s y => no_sleep_outer_rate_limited_call outcomes 3 s y) 3 ⟨rl, 0⟩ x hx
  · intro env h d m t f hmem hm8
    exact download_folder_is_item_folder env h d m t f hmem hm8
  · intro u₁ i₁ u₂ i₂ heq
    cases heq
    exact ⟨rfl, rfl⟩

/-- C6 amended witness: the all-attempts-fail oracle on the media
limiter, fed through the amended theorem. -/
theorem c6_download_retries_witness :
    count_fetch (download_media_raw (fun _ => false) MEDIA_RATE_LIMITER).2.1 ≤ 3 ∧
      (∀ x, DlEv.sleep_outer x ∈
          (download_media_raw (fun _ => false) MEDIA_RATE_LIMITER).2.1 → x = 5) ∧
      count_fetch
          (download_media_wrapped (fun _ => false) MEDIA_RATE_LIMITER).2.1 ≤ 9 ∧
      (∀ x, DlEv.sleep_outer x ∈
          (download_media_wrapped (fun _ => false) MEDIA_RATE_LIMITER).2.1 →
        x = 5) ∧
      (∀ env h d m t f, Call.download t f ∈ (repost_media env h d m).calls →
        m.media_type ≠ 8 → f = MediaPath.item_folder m.username m.id) ∧
      (∀ u₁ i₁ u₂ i₂, MediaPath.item_folder u₁ i₁ = MediaPath.item_folder u₂ i₂ →
        u₁ = u₂ ∧ i₁ = i₂) :=
  c6_download_retries (fun _ => false) MEDIA_RATE_LIMITER

section QuotaLemmas

/-- When every removal succeeds, the removal loop drops a minimal
prefix of its input: the survivors are `l.drop k` where every shorter
suffix was still over quota, and the loop stopped because the suffix
came at or under quota or ran out of folders. -/
lemma remove_oldest_all_ok (max_mb : ℚ) (base : Nat) :
    ∀ l : List MediaSubfolder, ∃ k, k ≤ l.length ∧
      remove_oldest max_mb base (fun _ => true) l [] = l.drop k ∧
      (∀ j, j < k → max_mb < get_folder_size base (l.drop j)) ∧
      (get_folder_size base (l.drop k) ≤ max_mb ∨ k = l.length) := by
  intro l
  induction l with
  | nil =>
    exact ⟨0, Nat.le_refl 0, by simp [remove_oldest], fun j hj => absurd hj (by omega),
      Or.inr rfl⟩
  | cons f rest ih =>
    by_cases hle : get_folder_size base (f :: rest) ≤ max_mb
    · refine ⟨0, Nat.zero_le _, ?_, fun j hj => absurd hj (by omega), Or.inl hle⟩
      simp [remove_oldest, hle]
    · rcases ih with ⟨k, hk, heq, hj, hstop⟩
      refine ⟨k + 1, by simpa using Nat.succ_le_succ hk, ?_, ?_, ?_⟩
      · rw [List.drop_succ_cons]
        rw [remove_oldest]
        simp only [List.nil_append, if_neg hle]
        exact heq
      · intro j hjk
        cases j with
        | zero => simpa using lt_of_not_le hle
        | succ j' =>
          rw [List.drop_succ_cons]
          exact hj j' (by omega)
      · rw [List.drop_succ_cons]
        rcases hstop with hs | hs
        · exact Or.inl hs
        · exact Or.inr (by simp [hs])

end QuotaLemmas

/-- C7 counterexample.  The removal loop wraps `shutil.rmtree` in a
`try/except` and moves on after a failure, so when the oldest folder
(`old`, ctime 1) fails to delete, the pass goes on to remove the
younger folder (`young`, ctime 2) and keeps `old` — removing a folder
whose creation time is younger than that of a folder it kept, which
the claim rules out. -/
theorem c7_counterexample :
    cleanup_old_media 10 0 (fun f => decide (1 < f.ctime))
        [⟨"old", 1, 7 * 1048576⟩, ⟨"young", 2, 8 * 1048576⟩] =
      [⟨"old", 1, 7 * 1048576⟩] ∧
      (⟨"old", 1, 7 * 1048576⟩ : MediaSubfolder).ctime <
        (⟨"young", 2, 8 * 1048576⟩ : MediaSubfolder).ctime := by
  decide

/-- C7 amended.  Provided every attempted removal succeeds, one run of
the quota pass removes nothing when the root is at or under quota, and
otherwise removes exactly a minimal prefix of the ctime-ascending
sorted subfolder list: every removal happened while the total was
still over quota, the pass stops as soon as the total is at or under
quota or no folders remain, and every removed folder's creation time
is at most that of every kept folder.  (When a removal fails, the
folder is skipped, stays in place, and strictly younger folders may
then be removed — see the counterexample.) -/
theorem c7_quota_pass (max_mb : ℚ) (base : Nat)
    (folders : List MediaSubfolder) :
    (¬ max_mb < get_folder_size base folders →
      cleanup_old_media max_mb base (fun _ => true) folders = folders) ∧
      (max_mb < get_folder_size base folders →
        ∃ k, k ≤ (List.insertionSort ctime_le folders).length ∧
          cleanup_old_media max_mb base (fun _ => true) folders =
            (List.insertionSort ctime_le folders).drop k ∧
          (∀ j, j < k → max_mb < get_folder_size base
            ((List.insertionSort ctime_le folders).drop j)) ∧
          (get_folder_size base
              ((List.insertionSort ctime_le folders).drop k) ≤ max_mb ∨
            k = (List.insertionSort ctime_le folders).length) ∧
          (∀ f ∈ (List.insertionSort ctime_le folders).take k,
            ∀ g ∈ (List.insertionSort ctime_le folders).drop k,
              f.ctime ≤ g.ctime) ∧
          (List.insertionSort ctime_le folders).Perm folders) := by
  constructor
  · intro hle
    simp [cleanup_old_media, hle]
  · intro hgt
    rcases remove_oldest_all_ok max_mb base (List.insertionSort ctime_le folders)
      with ⟨k, hk, heq, hj, hstop⟩
    refine ⟨k, hk, ?_, hj, hstop, ?_, List.perm_insertionSort ctime_le folders⟩
    · rw [cleanup_old_media, if_pos hgt]
      exact heq
    · have hp : List.Pairwise ctime_le (List.insertionSort ctime_le folders) :=
        List.sorted_insertionSort ctime_le folders
      rw [← List.take_append_drop k (List.insertionSort ctime_le folders)] at hp
      exact fun f hf g hg => (List.pairwise_append.mp hp).2.2 f hf g hg

/-- C7 amended witness: a root over quota (13 MB against 10 MB) whose
two folders sort to ages 1 then 2; the theorem applied there. -/
theorem c7_quota_pass_witness :
    (¬ (10 : ℚ) < get_folder_size 0
        [⟨"a", 1, 6 * 1048576⟩, ⟨"b", 2, 7 * 1048576⟩] →
      cleanup_old_media 10 0 (fun _ => true)
          [⟨"a", 1, 6 * 1048576⟩, ⟨"b", 2, 7 * 1048576⟩] =
        [⟨"a", 1, 6 * 1048576⟩, ⟨"b", 2, 7 * 1048576⟩]) ∧
      ((10 : ℚ) < get_folder_size 0
          [⟨"a", 1, 6 * 1048576⟩, ⟨"b", 2, 7 * 1048576⟩] →
        ∃ k, k ≤ (List.insertionSort ctime_le
            [⟨"a", 1, 6 * 1048576⟩, ⟨"b", 2, 7 * 1048576⟩]).length ∧
          cleanup_old_media 10 0 (fun _ => true)
              [⟨"a", 1, 6 * 1048576⟩, ⟨"b", 2, 7 * 1048576⟩] =
            (List.insertionSort ctime_le
              [⟨"a", 1, 6 * 1048576⟩, ⟨"b", 2, 7 * 1048576⟩]).drop k ∧
          (∀ j, j < k → (10 : ℚ) < get_folder_size 0
            ((List.insertionSort ctime_le
              [⟨"a", 1, 6 * 1048576⟩, ⟨"b", 2, 7 * 1048576⟩]).drop j)) ∧
          (get_folder_size 0 ((List.insertionSort ctime_le
              [⟨"a", 1, 6 * 1048576⟩, ⟨"b", 2, 7 * 1048576⟩]).drop k) ≤ 10 ∨
            k = (List.insertionSort ctime_le
              [⟨"a", 1, 6 * 1048576⟩, ⟨"b", 2, 7 * 1048576⟩]).length) ∧
          (∀ f ∈ (List.insertionSort ctime_le
              [⟨"a", 1, 6 * 1048576⟩, ⟨"b", 2, 7 * 1048576⟩]).take k,
            ∀ g ∈ (List.insertionSort ctime_le
              [⟨"a", 1, 6 * 1048576⟩, ⟨"b", 2, 7 * 1048576⟩]).drop k,
              f.ctime ≤ g.ctime) ∧
          (List.insertionSort ctime_le
            [⟨"a", 1, 6 * 1048576⟩, ⟨"b", 2, 7 * 1048576⟩]).Perm
            [⟨"a", 1, 6 * 1048576⟩, ⟨"b", 2, 7 * 1048576⟩]) :=
  c7_quota_pass 10 0 [⟨"a", 1, 6 * 1048576⟩, ⟨"b", 2, 7 * 1048576⟩]

/-- C3 amended witness: the delay of `MEDIA_RATE_LIMITER`
(`initial = 5`, `max = 300`, `factor = 2`) after 3 failures and after
a subsequent success. -/
theorem c3_backoff_monotone_witness :
    (0 : ℚ) ≤ 5 ∧ (5 : ℚ) ≤ 300 ∧ (0 : ℚ) ≤ 2 ∧
      ((iter_failure (RateLimiter.init 5 300 2) 3).current_delay =
          min ((5 : ℚ) * 2 ^ 3) 300 ∧
        ((iter_failure (RateLimiter.init 5 300 2) 3).success).current_delay = 5) :=
  ⟨by norm_num, by norm_num, by norm_num,
    c3_backoff_monotone 5 300 2 (by norm_num) (by norm_num) (by norm_num) 3⟩

section PoolLemmas

/-- The state invariant of the pool under worker operations: every
checked-out connection is pooled, every pooled id is below the fresh
counter (so a fresh id is never already pooled or checked out), the
fresh counter stays positive (so id 0 stays reserved for the global
client), and the pool never outgrows `max_connections`. -/
def pool_inv (maxc : Nat) (s : PoolState) : Prop :=
  (∀ c ∈ in_use_ids s, c ∈ s.pool) ∧ (∀ x ∈ s.pool, x < s.next_fresh) ∧
    1 ≤ s.next_fresh ∧ s.pool.length ≤ maxc

lemma mark_in_use_ids (c t : Nat) (l : List (Nat × Nat)) (x : Nat)
    (hx : x ∈ (mark_in_use c t l).map Prod.fst) :
    x = c ∨ x ∈ l.map Prod.fst := by
  simp only [mark_in_use, List.map_cons, List.mem_cons] at hx
  rcases hx with hx | hx
  · exact Or.inl hx
  · right
    rcases List.mem_map.mp hx with ⟨p, hp, hpx⟩
    exact List.mem_map.mpr ⟨p, List.mem_of_mem_filter hp, hpx⟩

lemma pool_inv_init (maxc : Nat) (m₀ : AddMode) (hmax : 1 ≤ maxc) :
    pool_inv maxc (init_state m₀) := by
  cases m₀ <;>
    simp [pool_inv, init_state, add_connection, in_use_ids] <;> omega

lemma pool_inv_get_connection (mode : AddMode) (now maxc : Nat)
    (s : PoolState) (h : pool_inv maxc s) :
    pool_inv maxc (get_connection mode now maxc s).2 := by
  obtain ⟨huse, hlt, hpos, hlen⟩ := h
  rcases hf : s.pool.find? (fun c => decide (c ∉ in_use_ids s)) with _ | c₀
  · by_cases hl : s.pool.length < maxc
    · cases mode
      · have hstate : (get_connection AddMode.cookie_fresh now maxc s).2 =
            ⟨s.pool ++ [s.next_fresh], mark_in_use s.next_fresh now s.in_use,
              s.next_fresh + 1⟩ := by
          unfold get_connection
          rw [hf]
          simp [hl, add_connection]
        rw [hstate]
        dsimp only [pool_inv, in_use_ids]
        refine ⟨?_, ?_, Nat.succ_le_succ (Nat.zero_le _), ?_⟩
        · intro c hc
          rcases mark_in_use_ids _ _ _ _ hc with hc | hc
          · simp [hc]
          · exact List.mem_append.mpr (Or.inl (huse c hc))
        · intro x hx
          rcases List.mem_append.mp hx with hx | hx
          · exact Nat.lt_succ_of_lt (hlt x hx)
          · simp only [List.mem_singleton] at hx
            omega
        · simp only [List.length_append, List.length_singleton]
          omega
      · have hstate : (get_connection AddMode.login_global now maxc s).2 =
            ⟨s.pool ++ [0], mark_in_use 0 now s.in_use, s.next_fresh⟩ := by
          unfold get_connection
          rw [hf]
          simp [hl, add_connection]
        rw [hstate]
        dsimp only [pool_inv, in_use_ids]
        refine ⟨?_, ?_, hpos, ?_⟩
        · intro c hc
          rcases mark_in_use_ids _ _ _ _ hc with hc | hc
          · simp [hc]
          · exact List.mem_append.mpr (Or.inl (huse c hc))
        · intro x hx
          rcases List.mem_append.mp hx with hx | hx
          · exact hlt x hx
          · simp only [List.mem_singleton] at hx
            omega
        · simp only [List.length_append, List.length_singleton]
          omega
      · have hstate : (get_connection AddMode.add_fail now maxc s).2 = s := by
          unfold get_connection
          rw [hf]
          simp [hl, add_connection]
        rw [hstate]
        exact ⟨huse, hlt, hpos, hlen⟩
    · have hstate : (get_connection mode now maxc s).2 = s := by
        unfold get_connection
        rw [hf]
        simp [hl]
      rw [hstate]
      exact ⟨huse, hlt, hpos, hlen⟩
  · have hstate : (get_connection mode now maxc s).2 =
        ⟨s.pool, mark_in_use c₀ now s.in_use, s.next_fresh⟩ := by
      unfold get_connection
      rw [hf]
    rw [hstate]
    dsimp only [pool_inv, in_use_ids]
    refine ⟨?_, hlt, hpos, hlen⟩
    intro c hc
    rcases mark_in_use_ids _ _ _ _ hc with hc | hc
    · exact hc ▸ List.mem_of_find?_eq_some hf
    · exact huse c hc

lemma pool_inv_release (c : Nat) (maxc : Nat) (s : PoolState)
    (h : pool_inv maxc s) : pool_inv maxc (release_connection c s) := by
  obtain ⟨huse, hlt, hpos, hlen⟩ := h
  refine ⟨?_, hlt, hpos, hlen⟩
  intro x hx
  simp only [release_connection, in_use_ids] at hx
  rcases List.mem_map.mp hx with ⟨p, hp, hpx⟩
  exact huse x (List.mem_map.mpr ⟨p, List.mem_of_mem_filter hp, hpx⟩)

lemma pool_inv_apply_op (maxc : Nat) (s : PoolState) (op : PoolOp)
    (h : pool_inv maxc s) : pool_inv maxc (apply_op maxc s op) := by
  cases op with
  | acquire mode now => exact pool_inv_get_connection mode now maxc s h
  | release c => exact pool_inv_release c maxc s h

lemma pool_inv_run_ops (maxc : Nat) (ops : List PoolOp) (s : PoolState)
    (h : pool_inv maxc s) : pool_inv maxc (run_ops maxc ops s) := by
  induction ops generalizing s with
  | nil => exact h
  | cons op rest ih => exact ih _ (pool_inv_apply_op maxc s op h)

lemma pool_length_mono_apply_op (maxc : Nat) (s : PoolState) (op : PoolOp) :
    s.pool.length ≤ (apply_op maxc s op).pool.length := by
  cases op with
  | acquire mode now =>
    show s.pool.length ≤ (get_connection mode now maxc s).2.pool.length
    unfold get_connection
    rcases hf : s.pool.find? (fun c => decide (c ∉ in_use_ids s)) with _ | c₀
    · by_cases hl : s.pool.length < maxc
      · cases mode <;> simp [hl, add_connection]
      · simp [hl]
    · exact Nat.le_refl _
  | release c => simp [apply_op, release_connection]

lemma pool_length_mono_run_ops (maxc : Nat) (ops : List PoolOp)
    (s : PoolState) :
    s.pool.length ≤ (run_ops maxc ops s).pool.length := by
  induction ops generalizing s with
  | nil => exact Nat.le_refl _
  | cons op rest ih =>
    exact Nat.le_trans (pool_length_mono_apply_op maxc s op) (ih _)

lemma run_ops_append (maxc : Nat) (l₁ l₂ : List PoolOp) (s : PoolState) :
    run_ops maxc (l₁ ++ l₂) s = run_ops maxc l₂ (run_ops maxc l₁ s) := by
  induction l₁ generalizing s with
  | nil => rfl
  | cons op rest ih => simp [run_ops, ih]

/-- A cookie-path acquire never hands out a checked-out connection:
either it finds a pooled connection that is not in `_in_use`, or it
creates a brand-new client whose fresh id is above everything pooled
(and checked-out connections are pooled). -/
lemma get_connection_fresh_not_in_use (now maxc : Nat) (s : PoolState)
    (hinv : pool_inv maxc s) (c : Nat) (s' : PoolState)
    (h : get_connection AddMode.cookie_fresh now maxc s = (some c, s')) :
    c ∉ in_use_ids s := by
  unfold get_connection at h
  rcases hf : s.pool.find? (fun c => decide (c ∉ in_use_ids s)) with _ | c₀
  · rw [hf] at h
    by_cases hl : s.pool.length < maxc
    · rw [if_pos hl] at h
      simp only [add_connection, Prod.mk.injEq, Option.some.injEq] at h
      intro hmem
      have hpool := hinv.1 c hmem
      have hlt := hinv.2.1 c hpool
      omega
    · rw [if_neg hl] at h
      simp at h
  · rw [hf] at h
    simp only [Prod.mk.injEq, Option.some.injEq] at h
    have hpred := List.find?_some hf
    simp only [decide_eq_true_eq] at hpred
    exact h.1 ▸ hpred

end PoolLemmas

/-- C4 counterexample.  When `_add_connection` takes the login
fallback, it appends the module-level `client` to the pool even if
that same object is already checked out: starting from a login-path
pool, one worker acquires the global client, and a second concurrent
acquire grows the pool with the same object and returns it — handing
out a connection that is currently in the in-use map, which the claim
forbids. -/
theorem c4_counterexample :
    (get_connection AddMode.login_global 11 5
        (run_ops 5 [PoolOp.acquire AddMode.login_global 10]
          (init_state AddMode.login_global))).1 = some 0 ∧
      0 ∈ in_use_ids (run_ops 5 [PoolOp.acquire AddMode.login_global 10]
        (init_state AddMode.login_global)) := by
  decide

/-- C4 amended.  For every sequence of acquire/release operations
(from the constructor's state, with `max_connections ≥ 1`): an acquire
whose pool growth takes the fresh cookie path never returns a
connection currently in the in-use map (the login fallback can return
the already-checked-out global client — see the counterexample); the
pool size never exceeds `max_connections`; and, absent stale eviction,
the pool never shrinks — though it starts with a single connection,
which is below the default `min_connections = 2`. -/
theorem c4_pool_bounds (maxc : Nat) (m₀ : AddMode) (ops : List PoolOp)
    (hmax : 1 ≤ maxc) :
    (∀ now c s', get_connection AddMode.cookie_fresh now maxc
        (run_ops maxc ops (init_state m₀)) = (some c, s') →
      c ∉ in_use_ids (run_ops maxc ops (init_state m₀))) ∧
      (run_ops maxc ops (init_state m₀)).pool.length ≤ maxc ∧
      (∀ more, (run_ops maxc ops (init_state m₀)).pool.length ≤
        (run_ops maxc (ops ++ more) (init_state m₀)).pool.length) := by
  have hinv := pool_inv_run_ops maxc ops (init_state m₀)
    (pool_inv_init maxc m₀ hmax)
  refine ⟨?_, hinv.2.2.2, ?_⟩
  · intro now c s' h
    exact get_connection_fresh_not_in_use now maxc _ hinv c s' h
  · intro more
    rw [run_ops_append]
    exact pool_length_mono_run_ops maxc more _

/-- C4 amended witness: the default pool configuration
(`max_connections = 5`), a cookie-path constructor and a two-operation
run. -/
theorem c4_pool_bounds_witness :
    1 ≤ 5 ∧
      ((∀ now c s', get_connection AddMode.cookie_fresh now 5
          (run_ops 5 [PoolOp.acquire AddMode.cookie_fresh 0, PoolOp.release 1]
            (init_state AddMode.cookie_fresh)) = (some c, s') →
        c ∉ in_use_ids (run_ops 5
          [PoolOp.acquire AddMode.cookie_fresh 0, PoolOp.release 1]
          (init_state AddMode.cookie_fresh))) ∧
        (run_ops 5 [PoolOp.acquire AddMode.cookie_fresh 0, PoolOp.release 1]
          (init_state AddMode.cookie_fresh)).pool.length ≤ 5 ∧
        (∀ more, (run_ops 5
            [PoolOp.acquire AddMode.cookie_fresh 0, PoolOp.release 1]
            (init_state AddMode.cookie_fresh)).pool.length ≤
          (run_ops 5 ([PoolOp.acquire AddMode.cookie_fresh 0,
              PoolOp.release 1] ++ more)
            (init_state AddMode.cookie_fresh)).pool.length)) :=
  ⟨by decide,
    c4_pool_bounds 5 AddMode.cookie_fresh
      [PoolOp.acquire AddMode.cookie_fresh 0, PoolOp.release 1] (by decide)⟩

section StaleLemmas

/-- Erasing a list of keys from a duplicate-free pool removes exactly
those keys (with duplicates, `list.remove` only drops the first
occurrence). -/
lemma foldl_erase_mem (K : List Nat) :
    ∀ l : List Nat, l.Nodup →
      ∀ c, c ∈ K.foldl List.erase l ↔ (c ∈ l ∧ c ∉ K) := by
  induction K with
  | nil => intro l _ c; simp
  | cons k K' ih =>
    intro l hl c
    have herase : (k :: K').foldl List.erase l = K'.foldl List.erase (l.erase k) :=
      rfl
    rw [herase, ih (l.erase k) (hl.erase k) c]
    constructor
    · rintro ⟨hc, hK⟩
      rcases (List.Nodup.mem_erase_iff hl).mp hc with ⟨hne, hcl⟩
      exact ⟨hcl, by simp [hne, hK]⟩
    · rintro ⟨hc, hK⟩
      simp only [List.mem_cons, not_or] at hK
      exact ⟨(List.Nodup.mem_erase_iff hl).mpr ⟨hK.1, hc⟩, hK.2⟩

/-- Membership in the stale-key list. -/
lemma mem_stale_keys (max_age now : Nat) (s : PoolState) (c : Nat) :
    c ∈ ((s.in_use.filter fun p => decide (max_age < now - p.2)).map Prod.fst) ↔
      ∃ t, (c, t) ∈ s.in_use ∧ max_age < now - t := by
  constructor
  · intro hc
    rcases List.mem_map.mp hc with ⟨p, hp, hpc⟩
    rcases List.mem_filter.mp hp with ⟨hmem, hcond⟩
    refine ⟨p.2, ?_, by simpa using hcond⟩
    rw [← hpc]
    simpa using hmem
  · rintro ⟨t, hmem, hcond⟩
    exact List.mem_map.mpr ⟨(c, t),
      List.mem_filter.mpr ⟨hmem, by simpa using hcond⟩, rfl⟩

/-- After `remove_stale`, with a duplicate-free pool, the pool holds
exactly the previously pooled connections that were not stale. -/
lemma remove_stale_pool_mem (max_age now : Nat) (s : PoolState)
    (hpool : s.pool.Nodup) (c : Nat) :
    c ∈ (remove_stale max_age now s).pool ↔
      (c ∈ s.pool ∧ ¬ ∃ t, (c, t) ∈ s.in_use ∧ max_age < now - t) := by
  unfold remove_stale
  rw [foldl_erase_mem _ s.pool hpool c, mem_stale_keys]

/-- `remove_stale` keeps exactly the in-use entries that are not
stale. -/
lemma remove_stale_in_use (max_age now : Nat) (s : PoolState) :
    (remove_stale max_age now s).in_use =
      s.in_use.filter fun p => decide (now - p.2 ≤ max_age) := rfl

/-- The top-up loop, given enough fuel: the pool reaches at least
`min_connections`, grows only by appending, and `_in_use` is never
touched. -/
lemma ensure_min_aux_spec (minc : Nat) (modes : Nat → Bool) :
    ∀ fuel i (s : PoolState), minc - s.pool.length ≤ fuel →
      minc ≤ (ensure_min_aux minc modes fuel i s).pool.length ∧
        (∃ added, (ensure_min_aux minc modes fuel i s).pool =
          s.pool ++ added) ∧
        (ensure_min_aux minc modes fuel i s).in_use = s.in_use := by
  intro fuel
  induction fuel with
  | zero =>
    intro i s h
    exact ⟨by simp [ensure_min_aux]; omega, ⟨[], by simp [ensure_min_aux]⟩,
      rfl⟩
  | succ n ih =>
    intro i s h
    by_cases hlt : s.pool.length < minc
    · rw [ensure_min_aux, if_pos hlt]
      have hlen : (add_connection (ok_mode (modes i)) s).2.pool.length =
          s.pool.length + 1 := by
        cases modes i <;> simp [add_connection, ok_mode]
      have hpoolx : ∃ x, (add_connection (ok_mode (modes i)) s).2.pool =
          s.pool ++ [x] := by
        cases modes i <;> exact ⟨_, rfl⟩
      have huse : (add_connection (ok_mode (modes i)) s).2.in_use = s.in_use := by
        cases modes i <;> rfl
      have hrec := ih (i + 1) (add_connection (ok_mode (modes i)) s).2
        (by omega)
      refine ⟨hrec.1, ?_, by rw [hrec.2.2, huse]⟩
      rcases hrec.2.1 with ⟨added, ha⟩
      rcases hpoolx with ⟨x, hx⟩
      exact ⟨x :: added, by rw [ha, hx, List.append_assoc]; rfl⟩
    · rw [ensure_min_aux, if_neg hlt]
      exact ⟨by omega, ⟨[], by simp⟩, rfl⟩

end StaleLemmas

/-- C10 counterexample.  The login fallback of `_add_connection` can
leave the pool with two entries for the module-level client; after a
second checkout of that client, the cleanup pass finds it stale,
deletes it from `_in_use`, but `list.remove` drops only the first pool
occurrence — so the stale connection is still pooled afterwards, and
the pass did not remove from the pool exactly the stale connections.
(The state is reached from the constructor by two login-path
acquires.) -/
theorem c10_counterexample :
    (0, 1) ∈ (run_ops 5 [PoolOp.acquire AddMode.login_global 0,
        PoolOp.acquire AddMode.login_global 1]
        (init_state AddMode.login_global)).in_use ∧
      3600 < 4000 - 1 ∧
      0 ∈ (cleanup_stale_connections 3600 4000 1 (fun _ => true)
        (run_ops 5 [PoolOp.acquire AddMode.login_global 0,
          PoolOp.acquire AddMode.login_global 1]
          (init_state AddMode.login_global))).pool := by
  decide

/-- C10 amended.  For a pool state without duplicate pool entries (and
modelling only cleanup passes whose `_add_connection` calls succeed —
a failing add would loop forever): the cleanup removes from the in-use
map exactly the entries checked out more than `max_age` ago, removes
from the pool exactly the stale connections, then appends new
connections until the pool size is at least `min_connections`; the
in-use map is not touched by the top-up. -/
theorem c10_stale_cleanup (max_age now minc : Nat) (modes : Nat → Bool)
    (s : PoolState) (hpool : s.pool.Nodup) :
    ((cleanup_stale_connections max_age now minc modes s).in_use =
        s.in_use.filter fun p => decide (now - p.2 ≤ max_age)) ∧
      (∀ c, c ∈ (remove_stale max_age now s).pool ↔
        (c ∈ s.pool ∧ ¬ ∃ t, (c, t) ∈ s.in_use ∧ max_age < now - t)) ∧
      minc ≤ (cleanup_stale_connections max_age now minc modes s).pool.length ∧
      (∃ added, (cleanup_stale_connections max_age now minc modes s).pool =
        (remove_stale max_age now s).pool ++ added) := by
  have hspec := ensure_min_aux_spec minc modes minc 0
    (remove_stale max_age now s) (by omega)
  refine ⟨?_, fun c => remove_stale_pool_mem max_age now s hpool c,
    hspec.1, hspec.2.1⟩
  show (ensure_min minc modes 0 (remove_stale max_age now s)).in_use = _
  rw [show ensure_min minc modes 0 (remove_stale max_age now s) =
      ensure_min_aux minc modes minc 0 (remove_stale max_age now s) from rfl,
    hspec.2.2, remove_stale_in_use]

/-- C10 amended witness: a duplicate-free two-connection pool, one
connection stale, topped back up to the minimum of 2. -/
theorem c10_stale_cleanup_witness :
    (⟨[0, 1], [(0, 1), (1, 3000)], 2⟩ : PoolState).pool.Nodup ∧
      (((cleanup_stale_connections 3600 4000 2 (fun _ => true)
          ⟨[0, 1], [(0, 1), (1, 3000)], 2⟩).in_use =
        ([(0, 1), (1, 3000)] : List (Nat × Nat)).filter
          fun p => decide (4000 - p.2 ≤ 3600)) ∧
      (∀ c, c ∈ (remove_stale 3600 4000
          ⟨[0, 1], [(0, 1), (1, 3000)], 2⟩).pool ↔
        (c ∈ ([0, 1] : List Nat) ∧
          ¬ ∃ t, (c, t) ∈ ([(0, 1), (1, 3000)] : List (Nat × Nat)) ∧
            3600 < 4000 - t)) ∧
      2 ≤ (cleanup_stale_connections 3600 4000 2 (fun _ => true)
        ⟨[0, 1], [(0, 1), (1, 3000)], 2⟩).pool.length ∧
      (∃ added, (cleanup_stale_connections 3600 4000 2 (fun _ => true)
          ⟨[0, 1], [(0, 1), (1, 3000)], 2⟩).pool =
        (remove_stale 3600 4000 ⟨[0, 1], [(0, 1), (1, 3000)], 2⟩).pool
          ++ added)) :=
  ⟨by decide,
    c10_stale_cleanup 3600 4000 2 (fun _ => true)
      ⟨[0, 1], [(0, 1), (1, 3000)], 2⟩ (by decide)⟩
